import Mathlib

/-!
Verification of the batch loader `mem_load.py` and its storage abstraction
`storage_client.py` (a shallow embedding in Lean 4).

The embedding translates the Python source:
* Python strings are Lean `String`s; the string helpers used by the source
  (`str.strip`, `str.split` on a one-character separator, `str.lower`) are
  re-implemented structurally on the underlying character list, so that all
  definitions evaluate by kernel reduction.
* `int(...)` and `float(...)` are modelled by `pyInt?` / `pyFloat?`, which
  return `none` exactly where the Python call raises `ValueError`.  Decimal
  float literals are modelled exactly as rationals (no binary rounding is
  applied; no claim depends on rounded float values), and the special
  `inf` / `nan` literals accepted by Python are represented by dedicated
  constructors.  Underscore digit-grouping (a rarely used corner of the
  Python numeric grammar) is outside the modelled grammar.
* Exceptions are modelled with `Except PyError`; Python `dict`s are modelled
  as insertion-ordered association lists (`alistSet` replaces the value of
  an existing key in place and appends a fresh key at the end, which is
  exactly the CPython ordering contract).
* Side effects (log lines, calls to `insert_appsinstalled`, network writes,
  the completion-marker rename, the final error-rate log) are recorded in an
  explicit event trace carried by the loader state.
-/

namespace MemLoad

/-! ## Python string primitives -/

/-- `str.split(sep)` for a one-character separator: no collapsing of empty
fields, and the split of the empty string is `[""]`. -/
def splitOnChar (sep : Char) : List Char → List (List Char)
  | [] => [[]]
  | c :: rest =>
    let r := splitOnChar sep rest
    if c = sep then [] :: r
    else
      match r with
      | [] => [[c]]
      | h :: t => (c :: h) :: t

/-- `s.split(sep)` for a one-character separator (the source only splits on
`"\t"`, `","` and `":"`). -/
def pySplit (s : String) (sep : Char) : List String :=
  (splitOnChar sep s.data).map String.mk

/-- `s.strip()`: drop leading and trailing whitespace. -/
def pyStrip (s : String) : String :=
  String.mk (((s.data.dropWhile Char.isWhitespace).reverse.dropWhile Char.isWhitespace).reverse)

/-- `s.lower()` (used by `float(...)` for the `inf` / `nan` keywords). -/
def pyLower (s : String) : String :=
  String.mk (s.data.map Char.toLower)

/-- Value of a non-empty all-digit character list. -/
def digitsToNat (cs : List Char) : Nat :=
  cs.foldl (fun n c => 10 * n + (c.toNat - 48)) 0

/-- A non-empty run of decimal digits, or `none`. -/
def parseDigits? (cs : List Char) : Option Nat :=
  if cs ≠ [] ∧ cs.all Char.isDigit then some (digitsToNat cs) else none

/-- Python `int(s)`: optional surrounding whitespace, optional sign, a
non-empty digit run; `none` models `ValueError`. -/
def pyInt? (s : String) : Option Int :=
  match (pyStrip s).data with
  | '+' :: r => (parseDigits? r).map (fun n => (n : Int))
  | '-' :: r => (parseDigits? r).map (fun n => -(n : Int))
  | r => (parseDigits? r).map (fun n => (n : Int))

/-- Mantissa of a float literal: `digits`, `digits.`, `digits.digits` or
`.digits` (at least one digit overall).  The result is a scaled integer:
`(m, s)` stands for the value `m / 10 ^ s`. -/
def mantVal? (cs : List Char) : Option (Nat × Nat) :=
  let ip := cs.takeWhile Char.isDigit
  let r := cs.dropWhile Char.isDigit
  match r with
  | [] => if ip = [] then none else some (digitsToNat ip, 0)
  | '.' :: fp =>
    if fp.all Char.isDigit ∧ (ip ≠ [] ∨ fp ≠ []) then
      some (digitsToNat ip * 10 ^ fp.length + digitsToNat fp, fp.length)
    else none
  | _ => none

/-- Exponent part of a float literal: empty, or `e`/`E` followed by an
optionally signed digit run. The argument includes the leading `e`/`E`. -/
def expVal? (cs : List Char) : Option Int :=
  match cs with
  | [] => some 0
  | _ :: es =>
    match es with
    | '+' :: ds => (parseDigits? ds).map (fun n => (n : Int))
    | '-' :: ds => (parseDigits? ds).map (fun n => -(n : Int))
    | ds => (parseDigits? ds).map (fun n => (n : Int))

/-- Finite float literal (after the sign): mantissa with optional exponent,
valued exactly as a rational (the rational is built with `mkRat` so that it
evaluates by kernel reduction). -/
def pyFloatFinite? (cs : List Char) : Option ℚ :=
  let mant := cs.takeWhile (fun c => c ≠ 'e' ∧ c ≠ 'E')
  let rest := cs.dropWhile (fun c => c ≠ 'e' ∧ c ≠ 'E')
  match mantVal? mant, expVal? rest with
  | some m, some e =>
    if 0 ≤ e then some (mkRat (m.1 * 10 ^ e.toNat) (10 ^ m.2))
    else some (mkRat m.1 (10 ^ (m.2 + (-e).toNat)))
  | _, _ => none

/-- A Python float value as far as this program observes it: an exact decimal
literal, or one of the special `inf` / `nan` values. -/
inductive PyFloat where
  | finite (q : ℚ)
  | inf (neg : Bool)
  | nan
deriving DecidableEq

/-- Python `float(s)`: strip, optional sign, then a finite literal or one of
the case-insensitive keywords `inf`, `infinity`, `nan`; `none` models
`ValueError`. -/
def pyFloat? (s : String) : Option PyFloat :=
  let t := (pyStrip s).data
  let signBody : Bool × List Char :=
    match t with
    | '+' :: r => (false, r)
    | '-' :: r => (true, r)
    | r => (false, r)
  let neg := signBody.1
  let body := signBody.2
  let low := pyLower (String.mk body)
  if low = "inf" ∨ low = "infinity" then some (.inf neg)
  else if low = "nan" then some .nan
  else
    match pyFloatFinite? body with
    | some q => some (.finite (if neg then -q else q))
    | none => none

example : pyInt? "1423" = some 1423 := by decide
example : pyInt? " -7 " = some (-7) := by decide
example : pyInt? "foo" = none := by decide
example : pyInt? "1.5" = none := by decide
example : pyInt? "" = none := by decide
example : pyFloat? "55.55" = some (.finite (mkRat 1111 20)) := by decide
example : pyFloat? "42.42" = some (.finite (mkRat 2121 50)) := by decide
example : pyFloat? "abc" = none := by decide
example : pyFloat? "-1e2" = some (.finite (-100)) := by decide
example : pyFloat? "1." = some (.finite 1) := by decide
example : pyFloat? ".5" = some (.finite (mkRat 1 2)) := by decide
example : pyFloat? "." = none := by decide
example : pyFloat? "1e-2" = some (.finite (mkRat 1 100)) := by decide
example : pyFloat? "Inf" = some (.inf false) := by decide
example : pyFloat? "" = none := by decide
example : pySplit "idfa\t123\t55.55" '\t' = ["idfa", "123", "55.55"] := by decide
example : pySplit "" '\t' = [""] := by decide

/-! ## Python exceptions and association lists (dicts) -/

/-- The exception classes this program can actually raise in the modelled
paths. -/
inductive PyError where
  | valueError
  | attributeError
  | indexError
deriving DecidableEq

instance {ε α : Type} [DecidableEq ε] [DecidableEq α] : DecidableEq (Except ε α)
  | .error e, .error f =>
    if h : e = f then .isTrue (by rw [h]) else .isFalse (by simp [h])
  | .error _, .ok _ => .isFalse (by simp)
  | .ok _, .error _ => .isFalse (by simp)
  | .ok x, .ok y =>
    if h : x = y then .isTrue (by rw [h]) else .isFalse (by simp [h])

/-- Insertion-ordered dict lookup (`d.get(k)`): first entry with key `k`. -/
def alistGet {α : Type} : List (String × α) → String → Option α
  | [], _ => none
  | (k', v') :: t, k => if k' = k then some v' else alistGet t k

/-- Insertion-ordered dict write (`d[k] = v` / `d.update({k: v})`): replace
the value of an existing key in place, append a fresh key at the end.  This
is the CPython dict ordering contract. -/
def alistSet {α : Type} : List (String × α) → String → α → List (String × α)
  | [], k, v => [(k, v)]
  | (k', v') :: t, k, v => if k' = k then (k, v) :: t else (k', v') :: alistSet t k v

/-! ## Data model (`mem_load.py` lines 12-14, 23-28) -/

/-- `BATCH_SIZE = 100_000`. -/
def BATCH_SIZE : Nat := 100000

/-- `NORMAL_ERR_RATE = 0.01` (exact value of the decimal literal). -/
def NORMAL_ERR_RATE : ℚ := mkRat 1 100

/-- `AppsInstalled = collections.namedtuple(..., ["dev_type", "dev_id",
"lat", "lon", "apps"])` as populated by `parse_appsinstalled`. -/
structure AppsInstalled where
  dev_type : String
  dev_id : String
  lat : PyFloat
  lon : PyFloat
  apps : List Int
deriving DecidableEq

/-- The `UserApps` protobuf payload built by `prepare_data`; the generated
codec module is external to the repository, so the serialized value is
modelled as the triple of logical fields it encodes. -/
structure UserApps where
  lat : PyFloat
  lon : PyFloat
  apps : List Int
deriving DecidableEq

/-- A per-address batch buffer: the dict of pending `key : serialized value`
pairs for one storage address. -/
abbrev Buffer := List (String × UserApps)

/-- Observable side effects of a run, recorded as an explicit trace: the log
lines the source emits, calls to `insert_appsinstalled` (with the batch they
were given), actual network writes, and the completion-marker rename. -/
inductive Event where
  | logProcessing (fn : String)
  | logInvalidGeo (line : String)
  | logUnknownDevType (dt : String)
  | logInsertDry (n : Nat)
  | logCannotWrite (addr : String)
  | insertCall (addr : String) (d : Buffer)
  | netWrite (addr : String) (d : Buffer)
  | rename (src : String) (dst : String)
  | logSuccessLoad (rate : ℚ)
  | logFailedLoad (rate : ℚ)
deriving DecidableEq

/-! ## The record parser (`parse_appsinstalled`, `mem_load.py` lines 44-66) -/

/-- The `[int(a.strip()) for a in raw_apps.split(",")]` comprehension:
`none` models the `ValueError` raised by the first non-integer token. -/
def parseApps? (raw_apps : String) : Option (List Int) :=
  ((pySplit raw_apps ',').map (fun a => pyInt? (pyStrip a))).foldr
    (fun o acc =>
      match o, acc with
      | some x, some xs => some (x :: xs)
      | _, _ => none)
    (some [])

/-- `parse_appsinstalled(line)`.  The result is the returned value
(`Except.ok`) or the exception the call raises (`Except.error`), paired
with the log lines it emits.

Two raising paths exist in the source:
* more than 5 tab-separated fields make the tuple unpacking on line 50
  raise `ValueError` (the guard on line 47 only rejects fewer than 5);
* a non-integer app token sends the code into the `except ValueError`
  fallback on line 57, which calls the misspelled method `a.isidigit()`
  and therefore raises `AttributeError` before reaching the log call on
  line 58 (the self-test on line 129 spells the same check `a.isdigit()`).
-/
def parse_appsinstalled (line : String) : Except PyError (Option AppsInstalled) × List Event :=
  match pySplit (pyStrip line) '\t' with
  | [dev_type, dev_id, lat, lon, raw_apps] =>
    if dev_type = "" ∨ dev_id = "" then (.ok none, [])
    else
      match parseApps? raw_apps with
      | none => (.error .attributeError, [])
      | some apps =>
        match pyFloat? lat, pyFloat? lon with
        | some la, some lo => (.ok (some ⟨dev_type, dev_id, la, lo, apps⟩), [])
        | _, _ => (.ok none, [.logInvalidGeo line])
  | parts => if parts.length < 5 then (.ok none, []) else (.error .valueError, [])

example :
    (parse_appsinstalled "idfa\t1rfw452y52g2gq4g\t55.55\t42.42\t1423,43").1 =
      .ok (some ⟨"idfa", "1rfw452y52g2gq4g", .finite (mkRat 1111 20), .finite (mkRat 2121 50),
        [1423, 43]⟩) := by decide
example : (parse_appsinstalled "idfa\t123\t55.55").1 = .ok none := by decide
example : (parse_appsinstalled "\t123\t1.0\t1.0\t1,2,3").1 = .ok none := by decide
example : (parse_appsinstalled "idfa\t1\t1.0\t1.0\t1,foo").1 = .error .attributeError := by decide
example : (parse_appsinstalled "a\tb\t1.0\t1.0\t1\tx").1 = .error .valueError := by decide
example : parse_appsinstalled "idfa\t1\tbad\t1.0\t1,2" =
    (.ok none, [.logInvalidGeo "idfa\t1\tbad\t1.0\t1,2"]) := by decide

/-! ## Storage clients (`storage_client.py`) -/

/-- The retry backoff policy configured on the resilient client
(`ExponentialBackoff()`). -/
inductive Backoff where
  | exponential
deriving DecidableEq

/-- The exception classes listed in `retry_on_error`. -/
inductive RetryTrigger where
  | busyLoadingError
  | connectionError
  | timeoutError
deriving DecidableEq

/-- A constructed backend client: the simple non-retrying memcache client
(`base.Client(addr)`) or the resilient redis client with its full
construction-time configuration (`storage_client.py` lines 16-25). -/
inductive Client where
  | memcacheClient (addr : String)
  | redisClient (host : String) (port : Int) (socket_timeout : Nat)
      (retryBackoff : Backoff) (retryMax : Nat)
      (retry_on_error : List RetryTrigger) (decode_responses : Bool)
deriving DecidableEq

/-- `StorageFabric.get_client(name, addr)` (`storage_client.py` lines 10-27).
`addr.split(":")[1]` raises `IndexError` when the address has no colon, and
`int(...)` raises `ValueError` when the port is not numeric; an unsupported
`name` raises `ValueError("Unexpected storage name")`. -/
def StorageFabric.get_client (name : String) (addr : String) : Except PyError Client :=
  if name = "memcache" then .ok (.memcacheClient addr)
  else if name = "redis" then
    match (pySplit addr ':').drop 1 with
    | [] => .error .indexError
    | portStr :: _ =>
      match pyInt? portStr with
      | none => .error .valueError
      | some port =>
        .ok (.redisClient ((pySplit addr ':').headD "") port 3 .exponential 3
          [.busyLoadingError, .connectionError, .timeoutError] true)
  else .error .valueError

/-- The process-wide `StorageManager.clients` dict, keyed by address. -/
abbrev ClientCache := List (String × Client)

/-- The class attributes defined on `StorageManager` (`storage_client.py`
lines 30-45).  Notably, `set_many` is not among them. -/
def StorageManager.attrs : List String := ["clients", "get_client", "set", "get"]

/-- Python attribute lookup `StorageManager.<name>`: raises
`AttributeError` for a name the class does not define. -/
def StorageManager.getattr (name : String) : Except PyError Unit :=
  if name ∈ StorageManager.attrs then .ok () else .error .attributeError

/-- `StorageManager.get_client(addr)` (`storage_client.py` lines 33-37),
acting on an explicit cache state.  The result carries the returned client,
the updated cache, and how many clients this call constructed. -/
def StorageManager.get_client (clients : ClientCache) (addr : String) :
    Except PyError (Client × ClientCache × Nat) :=
  match alistGet clients addr with
  | some c => .ok (c, clients, 0)
  | none =>
    match StorageFabric.get_client "redis" addr with
    | .error e => .error e
    | .ok c => .ok (c, alistSet clients addr c, 1)

/-! ## The loader (`mem_load.py` lines 17-122) -/

/-- The part of a path after its last `/` (the whole path if it has no
slash): the second component of POSIX `os.path.split`. -/
def splitTail (p : String) : List Char :=
  (p.data.reverse.takeWhile (fun c => c ≠ '/')).reverse

/-- The part of a path up to and including its last `/`. -/
def splitHeadRaw (p : String) : List Char :=
  (p.data.reverse.dropWhile (fun c => c ≠ '/')).reverse

/-- The first component of POSIX `os.path.split`: the raw head with its
trailing slashes stripped, unless it is empty or consists only of
slashes. -/
def splitHead (p : String) : List Char :=
  if (splitHeadRaw p).all (fun c => c = '/') then splitHeadRaw p
  else ((splitHeadRaw p).reverse.dropWhile (fun c => c = '/')).reverse

/-- `os.path.split(path)` (POSIX semantics). -/
def os_path_split (p : String) : String × String :=
  (String.mk (splitHead p), String.mk (splitTail p))

/-- POSIX `os.path.join` for two components. -/
def os_path_join (hd fn : String) : String :=
  if fn.data.head? = some '/' then fn
  else if hd = "" ∨ hd.data.getLast? = some '/' then hd ++ fn
  else hd ++ "/" ++ fn

/-- `dot_rename(path)` (`mem_load.py` lines 17-20): the destination path of
the completion-marker rename, `os.path.join(head, "." + fn)`. -/
def dot_rename (p : String) : String :=
  os_path_join (os_path_split p).1 ("." ++ (os_path_split p).2)

/-- `prepare_data(appsinstalled)` (`mem_load.py` lines 23-28): the single
`key: serialized-UserApps` pair it returns. -/
def prepare_data (ai : AppsInstalled) : String × UserApps :=
  (ai.dev_type ++ ":" ++ ai.dev_id, ⟨ai.lat, ai.lon, ai.apps⟩)

/-- Outcome of one `insert_appsinstalled` call: the Python return value
(`none` models the implicit `None` of the dry-run branch, which has no
`return` statement) and the trace it produces. -/
structure InsertOut where
  result : Option Bool
  events : List Event
deriving DecidableEq

/-- `insert_appsinstalled(addr, data, thread_executor, dry_run)`
(`mem_load.py` lines 31-41).  Every call is recorded as an `insertCall`
event.  In the non-dry branch the arguments of `thread_executor.submit` are
evaluated first, so the attribute lookup `StorageManager.set_many` runs
inside the `try` block before any network activity; since the class defines
no `set_many`, it raises `AttributeError`, which is caught and logged and
makes the call return `False`.  The `.ok` arm below models the would-be
submitted write; it is unreachable (see `claim_C1`). -/
def insert_appsinstalled (addr : String) (d : Buffer) (dry_run : Bool) : InsertOut :=
  if dry_run then
    { result := none, events := [.insertCall addr d, .logInsertDry d.length] }
  else
    match StorageManager.getattr "set_many" with
    | .error _ => { result := some false, events := [.insertCall addr d, .logCannotWrite addr] }
    | .ok _ => { result := some true, events := [.insertCall addr d, .netWrite addr d] }

/-- The command-line options consumed by `main` (`mem_load.py` lines
142-150), restricted to the fields `main` reads. -/
structure Options where
  idfa : String
  gaid : String
  adid : String
  dvid : String
  dry : Bool
deriving DecidableEq

/-- The `device_storage` routing dict (`mem_load.py` lines 70-75), as the
lookup `device_storage.get(dev_type)`. -/
def device_storage (o : Options) (dt : String) : Option String :=
  if dt = "idfa" then some o.idfa
  else if dt = "gaid" then some o.gaid
  else if dt = "adid" then some o.adid
  else if dt = "dvid" then some o.dvid
  else none

/-- Line 93: `if not (storage_addr := device_storage.get(...))` — the walrus
value is usable only when the lookup hits and the address string is
non-empty (truthy). -/
def routeAddr (o : Options) (dt : String) : Option String :=
  match device_storage o dt with
  | none => none
  | some a => if a = "" then none else some a

/-- The per-file loader state: the two counters, the per-address batch
buffers dict `data`, and the trace of observable effects so far. -/
structure FileState where
  processed : Nat
  errors : Nat
  buffers : List (String × Buffer)
  events : List Event
deriving DecidableEq

/-- Lines 100-106: flush one full batch: call `insert_appsinstalled`, add
the batch size to `processed` on a truthy result and to `errors` otherwise
(`if ok:` treats both `False` and the dry-run branch's implicit `None` as
failure), and clear the buffer. -/
def flushBatch (o : Options) (s : FileState) (addr : String) (buf : Buffer) : FileState :=
  match (insert_appsinstalled addr buf o.dry).result with
  | some true =>
    { s with processed := s.processed + buf.length, buffers := alistSet s.buffers addr [], events := s.events ++ (insert_appsinstalled addr buf o.dry).events }
  | _ =>
    { s with errors := s.errors + buf.length, buffers := alistSet s.buffers addr [], events := s.events ++ (insert_appsinstalled addr buf o.dry).events }

/-- Lines 98-106: insert one serialized record into its address's batch
buffer (`data[storage_addr].update(...)`) and flush when the buffer has
reached `BATCH_SIZE` entries. -/
def insertRecord (o : Options) (s : FileState) (addr : String) (kv : String × UserApps) :
    FileState :=
  if (alistSet ((alistGet s.buffers addr).getD []) kv.1 kv.2).length ≥ BATCH_SIZE then
    flushBatch o s addr (alistSet ((alistGet s.buffers addr).getD []) kv.1 kv.2)
  else
    { s with buffers := alistSet s.buffers addr (alistSet ((alistGet s.buffers addr).getD []) kv.1 kv.2) }

/-- Lines 93-106: route one successfully parsed record, then insert/flush. -/
def handleRecord (o : Options) (s : FileState) (ai : AppsInstalled) : FileState :=
  match routeAddr o ai.dev_type with
  | none =>
    { s with errors := s.errors + 1, events := s.events ++ [.logUnknownDevType ai.dev_type] }
  | some addr => insertRecord o s addr (prepare_data ai)

/-- Lines 84-106: one iteration of the line loop.  A blank line is skipped;
a parse reject counts one error; an exception raised by the parser
propagates (and would abort `main`, reaching the top-level handler). -/
def processLine (o : Options) (s : FileState) (line : String) : Except PyError FileState :=
  if pyStrip line = "" then .ok s
  else
    match (parse_appsinstalled (pyStrip line)).1 with
    | .error e => .error e
    | .ok none =>
      .ok { s with errors := s.errors + 1, events := s.events ++ (parse_appsinstalled (pyStrip line)).2 }
    | .ok (some ai) =>
      .ok (handleRecord o { s with events := s.events ++ (parse_appsinstalled (pyStrip line)).2 } ai)

/-- One step of the end-of-file loop (lines 108-114): flush a non-empty
buffer and account its size to the counters (the final loop does not clear
the buffers — `data` is discarded with the file). -/
def flushStep (o : Options) (st : FileState) (p : String × Buffer) : FileState :=
  if p.2 = [] then st
  else
    match (insert_appsinstalled p.1 p.2 o.dry).result with
    | some true =>
      { st with processed := st.processed + p.2.length, events := st.events ++ (insert_appsinstalled p.1 p.2 o.dry).events }
    | _ =>
      { st with errors := st.errors + p.2.length, events := st.events ++ (insert_appsinstalled p.1 p.2 o.dry).events }

/-- The end-of-file loop over an explicit list of buffer entries. -/
def flushFold (o : Options) (l : List (String × Buffer)) (st : FileState) : FileState :=
  l.foldl (flushStep o) st

/-- Lines 108-114: `for addr, values_dict in data.items(): ...`. -/
def flushRemaining (o : Options) (s : FileState) : FileState :=
  flushFold o s.buffers s

/-- Line 118: `err_rate = float(errors) / processed if processed else 1`
(exact rational value of the float division). -/
def err_rate (processed errors : Nat) : ℚ :=
  if processed ≠ 0 then mkRat errors processed else 1

/-- Lines 119-122: the success / failure log decided by the 1% threshold. -/
def rateEvent (processed errors : Nat) : Event :=
  if err_rate processed errors < NORMAL_ERR_RATE then .logSuccessLoad (err_rate processed errors)
  else .logFailedLoad (err_rate processed errors)

/-- Lines 108-122: after the lines of a file are exhausted — flush the
remaining buffers, rename the file, then compute and log the error rate. -/
def finishFile (o : Options) (fn : String) (s : FileState) : FileState :=
  { flushRemaining o s with events := (flushRemaining o s).events ++ [.rename fn (dot_rename fn), rateEvent (flushRemaining o s).processed (flushRemaining o s).errors] }

/-- Line 81: `data = {addr: dict() for addr in device_storage.values()}`,
iterating the four configured addresses in insertion order. -/
def initBuffers (o : Options) : List (String × Buffer) :=
  [o.idfa, o.gaid, o.adid, o.dvid].foldl (fun acc a => alistSet acc a []) []

/-- Lines 79-81: the state at the start of one file. -/
def initState (o : Options) (fn : String) : FileState :=
  { processed := 0, errors := 0, buffers := initBuffers o, events := [.logProcessing fn] }

/-- Lines 79-122: the full processing of one file, given its non-blank
stream of lines.  An exception escaping the line loop propagates. -/
def processFile (o : Options) (fn : String) (lines : List String) :
    Except PyError FileState :=
  (lines.foldlM (fun s l => processLine o s l) (initState o fn)).map (finishFile o fn)

/-! ## Trace and result projections -/

/-- The `processed` counter of a completed run (0 if the run raised). -/
def processedOf : Except PyError FileState → Nat
  | .ok s => s.processed
  | .error _ => 0

/-- The `errors` counter of a completed run (0 if the run raised). -/
def errorsOf : Except PyError FileState → Nat
  | .ok s => s.errors
  | .error _ => 0

/-- The event trace of a completed run ([] if the run raised). -/
def eventsOf : Except PyError FileState → List Event
  | .ok s => s.events
  | .error _ => []

/-- The `insert_appsinstalled` calls in a trace, as `(address, batch size)`
pairs in order. -/
def insertCallsOf (evs : List Event) : List (String × Nat) :=
  evs.filterMap (fun e =>
    match e with
    | .insertCall a d => some (a, d.length)
    | _ => none)

/-- The actual network writes in a trace. -/
def netWritesOf (evs : List Event) : List (String × Buffer) :=
  evs.filterMap (fun e =>
    match e with
    | .netWrite a d => some (a, d)
    | _ => none)

/-- Whether the parser produced a populated record. -/
def isRecord : Except PyError (Option AppsInstalled) → Bool
  | .ok (some _) => true
  | _ => false

/-! ## Concrete configurations and record families used by the theorems -/

/-- The default addresses of `mem_load.py` lines 147-150, with `--dry`. -/
def optsDry : Options :=
  ⟨"127.0.0.1:6380", "127.0.0.1:6381", "127.0.0.1:6382", "127.0.0.1:6383", true⟩

/-- The default addresses of `mem_load.py` lines 147-150, without `--dry`. -/
def optsWet : Options :=
  ⟨"127.0.0.1:6380", "127.0.0.1:6381", "127.0.0.1:6382", "127.0.0.1:6383", false⟩

/-- The serialized payload shared by the batch-boundary record family. -/
def ua0 : UserApps := ⟨.finite 1, .finite 1, [1]⟩

/-- A valid parsed `idfa` record with the given device id. -/
def mkRec (dev_id : String) : AppsInstalled := ⟨"idfa", dev_id, .finite 1, .finite 1, [1]⟩

/-- `n` valid `idfa` records whose device ids are `key 0, ..., key (n-1)`. -/
def recsFor (key : Nat → String) (n : Nat) : List AppsInstalled :=
  (List.range n).map (fun i => mkRec (key i))

/-- The batch buffer holding the first `n` records of `recsFor key`. -/
def bufOf (key : Nat → String) (n : Nat) : Buffer :=
  (List.range n).map (fun i => ("idfa:" ++ key i, ua0))

/-- Feed a list of already-parsed records through the routing/batching loop
of one file and run the end-of-file phase. -/
def runRecords (o : Options) (fn : String) (rs : List AppsInstalled) : FileState :=
  finishFile o fn (rs.foldl (handleRecord o) (initState o fn))

/-- Pairwise-distinct device ids for the batch-boundary scenarios. -/
def keyRep (i : Nat) : String := String.mk (List.replicate i 'a')

/-- The loader state after `c < BATCH_SIZE` of the `recsFor key` records of
one file: counters and trace untouched, `c` entries in the `idfa` buffer. -/
def midState (o : Options) (fn : String) (key : Nat → String) (c : Nat) : FileState :=
  { initState o fn with buffers := alistSet (initBuffers o) o.idfa (bufOf key c) }

/-- The loader state right after the flush triggered by the
`BATCH_SIZE`-th record: the whole batch accounted, the buffer cleared. -/
def boundaryState (o : Options) (fn : String) (key : Nat → String) : FileState :=
  { processed := 0, errors := 0 + (bufOf key BATCH_SIZE).length, buffers := alistSet (initBuffers o) o.idfa [], events := ([.logProcessing fn] : List Event) ++ (insert_appsinstalled o.idfa (bufOf key BATCH_SIZE) o.dry).events }

/-! ## Association-list lemmas -/

theorem alistGet_set {α : Type} (l : List (String × α)) (k1 k2 : String) (v : α) :
    alistGet (alistSet l k1 v) k2 = if k1 = k2 then some v else alistGet l k2 := by
  induction l with
  | nil => simp [alistSet, alistGet]
  | cons p t ih =>
    obtain ⟨k', v'⟩ := p
    by_cases h : k' = k1
    · subst h
      simp only [alistSet, if_pos rfl, alistGet]
      by_cases h2 : k' = k2 <;> simp [h2]
    · simp only [alistSet, if_neg h, alistGet, ih]
      by_cases h2 : k1 = k2
      · subst h2; simp [h]
      · simp [h2]

theorem alistGet_set_self {α : Type} (l : List (String × α)) (k : String) (v : α) :
    alistGet (alistSet l k v) k = some v := by
  rw [alistGet_set, if_pos rfl]

theorem alistSet_set {α : Type} (l : List (String × α)) (k : String) (v w : α) :
    alistSet (alistSet l k v) k w = alistSet l k w := by
  induction l with
  | nil => simp [alistSet]
  | cons p t ih =>
    obtain ⟨k', v'⟩ := p
    by_cases h : k' = k
    · subst h; simp [alistSet]
    · simp [alistSet, h, ih]

theorem alistSet_of_get_eq {α : Type} (l : List (String × α)) (k : String) (v : α)
    (h : alistGet l k = some v) : alistSet l k v = l := by
  induction l with
  | nil => simp [alistGet] at h
  | cons p t ih =>
    obtain ⟨k', v'⟩ := p
    by_cases hk : k' = k
    · subst hk
      rw [alistGet, if_pos rfl] at h
      obtain rfl : v' = v := by injection h
      simp [alistSet]
    · rw [alistGet, if_neg hk] at h
      simp [alistSet, hk, ih h]

theorem alistGet_eq_none {α : Type} (l : List (String × α)) (k : String)
    (h : ∀ p ∈ l, p.1 ≠ k) : alistGet l k = none := by
  induction l with
  | nil => rfl
  | cons p t ih =>
    obtain ⟨k', v'⟩ := p
    have hk : k' ≠ k := h (k', v') (by simp)
    rw [alistGet, if_neg hk]
    exact ih (fun q hq => h q (List.mem_cons_of_mem _ hq))

theorem alistSet_fresh {α : Type} (l : List (String × α)) (k : String) (v : α)
    (h : alistGet l k = none) : alistSet l k v = l ++ [(k, v)] := by
  induction l with
  | nil => rfl
  | cons p t ih =>
    obtain ⟨k', v'⟩ := p
    by_cases hk : k' = k
    · subst hk; rw [alistGet, if_pos rfl] at h; exact absurd h (by simp)
    · rw [alistGet, if_neg hk] at h
      simp [alistSet, hk, ih h]

theorem mem_alistSet {α : Type} (l : List (String × α)) (k : String) (v : α) :
    ∀ p ∈ alistSet l k v, p = (k, v) ∨ p ∈ l := by
  induction l with
  | nil =>
    intro p hp
    rw [alistSet] at hp
    exact Or.inl (by simpa using hp)
  | cons q t ih =>
    obtain ⟨k', v'⟩ := q
    intro p hp
    by_cases hk : k' = k
    · subst hk
      rw [alistSet, if_pos rfl] at hp
      rcases List.mem_cons.mp hp with h | h
      · exact Or.inl h
      · exact Or.inr (List.mem_cons_of_mem _ h)
    · rw [alistSet, if_neg hk] at hp
      rcases List.mem_cons.mp hp with h | h
      · exact Or.inr (by simp [h])
      · rcases ih p h with h2 | h2
        · exact Or.inl h2
        · exact Or.inr (List.mem_cons_of_mem _ h2)

/-! ## Generic list helpers -/

theorem takeWhile_append_mid {α : Type} (p : α → Bool) (l1 l2 : List α) (x : α)
    (h1 : ∀ a ∈ l1, p a = true) (hx : p x = false) :
    (l1 ++ x :: l2).takeWhile p = l1 := by
  induction l1 with
  | nil => simp [List.takeWhile_cons, hx]
  | cons a t ih =>
    have ha : p a = true := h1 a (by simp)
    simp only [List.cons_append, List.takeWhile_cons, ha, if_pos]
    rw [ih (fun b hb => h1 b (List.mem_cons_of_mem _ hb))]

theorem dropWhile_append_mid {α : Type} (p : α → Bool) (l1 l2 : List α) (x : α)
    (h1 : ∀ a ∈ l1, p a = true) (hx : p x = false) :
    (l1 ++ x :: l2).dropWhile p = x :: l2 := by
  induction l1 with
  | nil => simp [List.dropWhile_cons, hx]
  | cons a t ih =>
    have ha : p a = true := h1 a (by simp)
    simp only [List.cons_append, List.dropWhile_cons, ha, if_pos]
    exact ih (fun b hb => h1 b (List.mem_cons_of_mem _ hb))

theorem takeWhile_all {α : Type} (p : α → Bool) (l : List α)
    (h : ∀ a ∈ l, p a = true) : l.takeWhile p = l := by
  induction l with
  | nil => rfl
  | cons a t ih =>
    have ha : p a = true := h a (by simp)
    simp only [List.takeWhile_cons, ha, if_pos]
    rw [ih (fun b hb => h b (List.mem_cons_of_mem _ hb))]

theorem dropWhile_all {α : Type} (p : α → Bool) (l : List α)
    (h : ∀ a ∈ l, p a = true) : l.dropWhile p = [] := by
  induction l with
  | nil => rfl
  | cons a t ih =>
    have ha : p a = true := h a (by simp)
    simp only [List.dropWhile_cons, ha, if_pos]
    exact ih (fun b hb => h b (List.mem_cons_of_mem _ hb))

theorem dropWhile_of_head {α : Type} (p : α → Bool) (l : List α) (a : α)
    (h : l.head? = some a) (hp : p a = false) : l.dropWhile p = l := by
  cases l with
  | nil => rfl
  | cons x t =>
    obtain rfl : x = a := by injection h
    simp [List.dropWhile_cons, hp]

theorem mem_of_getLast?_eq {α : Type} {l : List α} {a : α}
    (h : l.getLast? = some a) : a ∈ l := by
  induction l with
  | nil => simp [List.getLast?] at h
  | cons x t ih =>
    cases t with
    | nil => simp_all
    | cons y t' =>
      rw [List.getLast?_cons_cons] at h
      exact List.mem_cons_of_mem _ (ih h)

/-! ## String helpers -/

theorem str_data_inj {a b : String} (h : a.data = b.data) : a = b := by
  cases a; cases b; exact congrArg String.mk h

theorem str_mk_data (s : String) : String.mk s.data = s := by
  cases s; rfl

theorem str_append_left_cancel {s a b : String} (h : s ++ a = s ++ b) : a = b := by
  have h2 := congrArg String.data h
  rw [String.data_append, String.data_append] at h2
  exact str_data_inj (List.append_cancel_left h2)

theorem str_nil_append (s : String) : "" ++ s = s := by
  cases s
  rfl

theorem dot_prefix_head (name : String) : ("." ++ name).data.head? = some '.' := by
  rw [String.data_append]
  rfl

/-! ## Behaviour of `insert_appsinstalled` -/

theorem insert_nondry_eq (a : String) (d : Buffer) :
    insert_appsinstalled a d false =
      { result := some false, events := [.insertCall a d, .logCannotWrite a] } := rfl

theorem insert_dry_eq (a : String) (d : Buffer) :
    insert_appsinstalled a d true =
      { result := none, events := [.insertCall a d, .logInsertDry d.length] } := rfl

theorem insertCallsOf_insert (a : String) (d : Buffer) (dry : Bool) :
    insertCallsOf (insert_appsinstalled a d dry).events = [(a, d.length)] := by
  cases dry
  · rw [insert_nondry_eq]; rfl
  · rw [insert_dry_eq]; rfl

/-! ## The `processed` counter can never move without `--dry` -/

theorem insertRecord_processed (o : Options) (ho : o.dry = false) (s : FileState)
    (addr : String) (kv : String × UserApps) :
    (insertRecord o s addr kv).processed = s.processed := by
  rw [insertRecord]
  split
  · rw [flushBatch, ho]
    rfl
  · rfl

theorem handleRecord_processed (o : Options) (ho : o.dry = false) (s : FileState)
    (ai : AppsInstalled) : (handleRecord o s ai).processed = s.processed := by
  rw [handleRecord]
  cases hr : routeAddr o ai.dev_type with
  | none => rfl
  | some addr =>
    dsimp only
    rw [insertRecord_processed o ho]

theorem processLine_processed (o : Options) (ho : o.dry = false) (s : FileState)
    (line : String) (s' : FileState) (h : processLine o s line = .ok s') :
    s'.processed = s.processed := by
  rw [processLine] at h
  split at h
  · injection h with h; rw [← h]
  · split at h
    · exact absurd h (by simp)
    · injection h with h; rw [← h]
    · injection h with h
      rw [← h, handleRecord_processed o ho]

theorem foldLines_processed (o : Options) (ho : o.dry = false) :
    ∀ (lines : List String) (s s' : FileState),
      List.foldlM (fun st l => processLine o st l) s lines = .ok s' →
      s'.processed = s.processed := by
  intro lines
  induction lines with
  | nil =>
    intro s s' h
    rw [List.foldlM_nil] at h
    injection h with h
    rw [h]
  | cons l t ih =>
    intro s s' h
    rw [List.foldlM_cons] at h
    cases hp : processLine o s l with
    | error e =>
      rw [hp] at h
      exact absurd h (by simp [Bind.bind, Except.bind])
    | ok s1 =>
      rw [hp] at h
      rw [show ((Except.ok s1 : Except PyError FileState) >>=
          fun b => List.foldlM (fun st l => processLine o st l) b t) =
          List.foldlM (fun st l => processLine o st l) s1 t from rfl] at h
      rw [ih s1 s' h, processLine_processed o ho s l s1 hp]

theorem flushStep_processed (o : Options) (ho : o.dry = false) (st : FileState)
    (p : String × Buffer) : (flushStep o st p).processed = st.processed := by
  rw [flushStep]
  split
  · rfl
  · rw [ho]
    rfl

theorem flushFold_processed (o : Options) (ho : o.dry = false) :
    ∀ (l : List (String × Buffer)) (st : FileState),
      (flushFold o l st).processed = st.processed := by
  intro l
  induction l with
  | nil => intro st; rfl
  | cons p t ih =>
    intro st
    rw [flushFold, List.foldl_cons]
    rw [show List.foldl (flushStep o) (flushStep o st p) t =
        flushFold o t (flushStep o st p) from rfl]
    rw [ih, flushStep_processed o ho]

/-! ## Claim C1 -/

/-- C1: in non-dry-run mode, every call of `insert_appsinstalled` returns
`False` for every address and non-empty batch: the attribute lookup
`StorageManager.set_many` raises `AttributeError` (the storage abstraction
only defines `set` and `get`), the `except` block catches it, logs, and
returns `False` — and no network write is attempted.  Consequently no run
without `--dry` ever increments the `processed` counter: whatever the input
lines, a completed `processFile` ends with `processed = 0`. -/
theorem claim_C1_set_many_missing :
    StorageManager.getattr "set_many" = .error .attributeError ∧
    (∀ (addr : String) (d : Buffer), d ≠ [] →
      (insert_appsinstalled addr d false).result = some false ∧
      netWritesOf (insert_appsinstalled addr d false).events = []) ∧
    (∀ (o : Options) (fn : String) (lines : List String), o.dry = false →
      processedOf (processFile o fn lines) = 0) := by
  refine ⟨rfl, fun addr d _ => ⟨rfl, rfl⟩, ?_⟩
  intro o fn lines ho
  rw [processFile]
  cases hr : List.foldlM (fun st l => processLine o st l) (initState o fn) lines with
  | error e => rfl
  | ok s =>
    rw [show ((Except.ok s : Except PyError FileState).map (finishFile o fn)) =
        Except.ok (finishFile o fn s) from rfl]
    rw [show processedOf (Except.ok (finishFile o fn s)) = (finishFile o fn s).processed from rfl]
    rw [show (finishFile o fn s).processed = (flushRemaining o s).processed from rfl]
    rw [flushRemaining, flushFold_processed o ho]
    rw [foldLines_processed o ho lines (initState o fn) s hr]
    rfl

/-- C1 witness: a concrete non-empty batch for the default `idfa` address,
and a one-line file processed without `--dry`. -/
theorem claim_C1_set_many_missing_witness :
    ((insert_appsinstalled "127.0.0.1:6380" [("idfa:1", ua0)] false).result = some false ∧
      netWritesOf (insert_appsinstalled "127.0.0.1:6380" [("idfa:1", ua0)] false).events = []) ∧
    processedOf
      (processFile optsWet "sample.tsv" ["idfa\t1rfw452y52g2gq4g\t55.55\t42.42\t1423,43"]) = 0 :=
  ⟨claim_C1_set_many_missing.2.1 "127.0.0.1:6380" [("idfa:1", ua0)] (by decide),
    claim_C1_set_many_missing.2.2 optsWet "sample.tsv"
      ["idfa\t1rfw452y52g2gq4g\t55.55\t42.42\t1423,43"] rfl⟩

/-! ## Claim C3 -/

/-- C3: the claim states that with `--dry` every parseable, routable
record's batch is counted as processed, as if written successfully.  The
first three conjuncts confirm the no-network-write half: a dry run performs
no network write (no `netWrite` event) while the batch is still flushed
through `insert_appsinstalled` (one `insertCall` of size 1, and the dry-run
debug log line).  The remaining conjuncts refute the counter half on the
code: the dry-run branch of `insert_appsinstalled` only logs and falls off
the function (implicitly returning `None`, despite the `-> bool`
annotation), `if ok:` treats `None` as falsy, so the batch is added to
`errors`, `processed` stays 0, and the file is logged as a failed load with
rate 1.  The claim matches the function's own `-> bool` annotation and the
evident purpose of a dry run; the missing `return True` is a slip in the
code. -/
theorem claim_C3_dry_run_errors :
    netWritesOf (eventsOf
      (processFile optsDry "sample.tsv" ["idfa\t1rfw452y52g2gq4g\t55.55\t42.42\t1423,43"])) = [] ∧
    insertCallsOf (eventsOf
      (processFile optsDry "sample.tsv" ["idfa\t1rfw452y52g2gq4g\t55.55\t42.42\t1423,43"])) =
      [("127.0.0.1:6380", 1)] ∧
    Event.logInsertDry 1 ∈ eventsOf
      (processFile optsDry "sample.tsv" ["idfa\t1rfw452y52g2gq4g\t55.55\t42.42\t1423,43"]) ∧
    processedOf
      (processFile optsDry "sample.tsv" ["idfa\t1rfw452y52g2gq4g\t55.55\t42.42\t1423,43"]) = 0 ∧
    errorsOf
      (processFile optsDry "sample.tsv" ["idfa\t1rfw452y52g2gq4g\t55.55\t42.42\t1423,43"]) = 1 ∧
    (eventsOf
      (processFile optsDry "sample.tsv" ["idfa\t1rfw452y52g2gq4g\t55.55\t42.42\t1423,43"])).getLast? =
      some (.logFailedLoad 1) := by
  refine ⟨?_, ?_, ?_, ?_, ?_, ?_⟩ <;> decide

/-! ## Claim C2 -/

/-- C2: the claim states that `parse_appsinstalled` is total — for every
input line it returns a record or `None` and never raises, including for
lines with more than 5 tab-separated fields and for lines whose app list
contains a non-integer token.  The code refutes this on exactly those two
inputs: a non-integer app token makes the `except ValueError` fallback call
the misspelled string method `a.isidigit()`, raising `AttributeError`, and a
line with 6 fields makes the tuple unpacking on line 50 raise `ValueError`
(the guard only checks for fewer than 5 fields).  The self-test
(`prototest`, line 129) spells the same check `a.isdigit()`, so the
misspelling contradicts the code's own idiom and the spec's stated
contract: the claim is right and the code is wrong. -/
theorem claim_C2_parse_raises :
    (parse_appsinstalled "idfa\t1rfw452y52g2gq4g\t55.55\t42.42\t1423,foo").1 =
      .error .attributeError ∧
    (parse_appsinstalled "a\tb\t1.0\t2.0\t1,2\textra").1 = .error .valueError ∧
    isRecord (parse_appsinstalled "idfa\t1rfw452y52g2gq4g\t55.55\t42.42\t1423,43").1 = true := by
  refine ⟨?_, ?_, ?_⟩ <;> decide

/-! ## Claim C4 -/

/-- C4: after the lines of a file are consumed, the loader computes
`err_rate = errors / processed` when `processed > 0` and `1.0` when
`processed = 0`, and logs a successful load exactly when the rate is below
`NORMAL_ERR_RATE = 0.01`; in particular `processed=99, errors=1` is a
failed load, `processed=999, errors=1` a successful load, and
`processed=0` always a failed load.  The last conjunct ties the decision to
the per-file pipeline: `finishFile` ends the trace with the rename followed
by `rateEvent` applied to the post-flush counters. -/
theorem claim_C4_error_rate :
    (∀ p e : Nat, 0 < p → err_rate p e = (e : ℚ) / (p : ℚ)) ∧
    (∀ e : Nat, err_rate 0 e = 1) ∧
    (∀ p e : Nat, (∃ r, rateEvent p e = .logSuccessLoad r) ↔ err_rate p e < NORMAL_ERR_RATE) ∧
    rateEvent 99 1 = .logFailedLoad (mkRat 1 99) ∧
    rateEvent 999 1 = .logSuccessLoad (mkRat 1 999) ∧
    (∀ e : Nat, rateEvent 0 e = .logFailedLoad 1) ∧
    (∀ o fn s, (finishFile o fn s).events =
      (flushRemaining o s).events ++ [.rename fn (dot_rename fn),
        rateEvent (flushRemaining o s).processed (flushRemaining o s).errors]) := by
  refine ⟨?_, ?_, ?_, ?_, ?_, ?_, ?_⟩
  · intro p e hp
    rw [err_rate, if_pos (Nat.pos_iff_ne_zero.mp hp), Rat.mkRat_eq_divInt, Rat.divInt_eq_div]
    push_cast
    ring
  · intro e; rfl
  · intro p e
    constructor
    · rintro ⟨r, hr⟩
      rw [rateEvent] at hr
      by_cases h : err_rate p e < NORMAL_ERR_RATE
      · exact h
      · rw [if_neg h] at hr; exact absurd hr (by simp)
    · intro h
      exact ⟨err_rate p e, by rw [rateEvent, if_pos h]⟩
  · decide
  · decide
  · intro e
    rw [rateEvent, if_neg (by rw [err_rate]; simp; decide)]
    rfl
  · intro o fn s; rfl

/-- C4 witness: the threshold decision evaluated at the three concrete
counter pairs named by the claim. -/
theorem claim_C4_error_rate_witness :
    err_rate 99 1 = (1 : ℚ) / (99 : ℚ) ∧
    rateEvent 99 1 = .logFailedLoad (mkRat 1 99) ∧
    rateEvent 999 1 = .logSuccessLoad (mkRat 1 999) ∧
    rateEvent 0 7 = .logFailedLoad 1 :=
  ⟨claim_C4_error_rate.1 99 1 (by decide), claim_C4_error_rate.2.2.2.1,
    claim_C4_error_rate.2.2.2.2.1, claim_C4_error_rate.2.2.2.2.2.1 7⟩

/-! ## Claim C6 -/

/-- C6: a line whose tab-split yields fewer than 5 fields, or whose
`dev_type` or `dev_id` field is empty, never produces a record.  (With
fewer than 5 fields, or 5 fields with an empty identifier, the parser
returns `None`; with more than 5 it raises; in every case no record is
produced.) -/
theorem claim_C6_reject (line : String)
    (h : (pySplit (pyStrip line) '\t').length < 5 ∨
      (pySplit (pyStrip line) '\t').headD "" = "" ∨
      ((pySplit (pyStrip line) '\t').drop 1).headD "" = "") :
    isRecord (parse_appsinstalled line).1 = false := by
  rcases hp : pySplit (pyStrip line) '\t' with _ | ⟨a, _ | ⟨b, _ | ⟨c, _ | ⟨d, _ | ⟨e, rest⟩⟩⟩⟩⟩ <;>
    rw [hp] at h <;>
    simp only [parse_appsinstalled, hp]
  · rfl
  · rfl
  · rfl
  · rfl
  · rfl
  · cases rest with
    | nil =>
      have hab : a = "" ∨ b = "" := by
        rcases h with h | h | h
        · exact absurd h (by simp)
        · exact Or.inl (by simpa using h)
        · exact Or.inr (by simpa using h)
      rcases hab with hab | hab <;> subst hab <;>
        simp [parse_appsinstalled, hp, isRecord]
    | cons r rs =>
      show isRecord (if (a :: b :: c :: d :: e :: r :: rs).length < 5 then
          ((Except.ok none : Except PyError (Option AppsInstalled)), ([] : List Event))
        else (.error .valueError, [])).1 = false
      rw [if_neg (by simp only [List.length_cons]; omega)]
      rfl

/-- C6 witness: the spec's own example line, an empty `dev_type` with five
fields. -/
theorem claim_C6_reject_witness :
    isRecord (parse_appsinstalled "\t123\t1.0\t1.0\t1,2,3").1 = false :=
  claim_C6_reject "\t123\t1.0\t1.0\t1,2,3" (by decide)

/-! ## Claim C8 -/

/-- C8: a successfully parsed record whose `dev_type` is not one of the four
routing keys is never inserted into any batch or written anywhere: the
routing step increments the error counter by one and appends the
unknown-device-type log line, leaving the counters' `processed`, the batch
buffers and the rest of the trace unchanged. -/
theorem claim_C8_unknown_dev_type (o : Options) (s : FileState) (ai : AppsInstalled)
    (h : ai.dev_type ∉ ["idfa", "gaid", "adid", "dvid"]) :
    handleRecord o s ai =
      { s with errors := s.errors + 1, events := s.events ++ [.logUnknownDevType ai.dev_type] } := by
  have hroute : routeAddr o ai.dev_type = none := by
    simp only [List.mem_cons, not_or] at h
    obtain ⟨h1, h2, h3, h4, _⟩ := h
    rw [routeAddr, device_storage, if_neg h1, if_neg h2, if_neg h3, if_neg h4]
  rw [handleRecord, hroute]

/-- C8 witness: the spec's `dev_type="unknown_type"` example, applied to the
initial state of a file. -/
theorem claim_C8_unknown_dev_type_witness :
    handleRecord optsWet (initState optsWet "sample.tsv")
        ⟨"unknown_type", "1rfw452y52g2gq4g", .finite 1, .finite 1, [1]⟩ =
      { processed := 0, errors := 0 + 1, buffers := initBuffers optsWet,
        events := [.logProcessing "sample.tsv"] ++ [.logUnknownDevType "unknown_type"] } :=
  claim_C8_unknown_dev_type optsWet (initState optsWet "sample.tsv") _ (by decide)

/-! ## Claim C7 -/

/-- C7: an otherwise well-formed line (5 tab-separated fields, non-empty
identifiers, all-integer app tokens) whose `lat` or `lon` field fails to
parse as a float is rejected by the parser with the invalid-geo log line,
and the line loop counts it as one parse error — it is never routed,
batched or written (the state is unchanged except for the error counter and
the log). -/
theorem claim_C7_invalid_geo (o : Options) (s : FileState) (line dt id la lo ra : String)
    (hsplit : pySplit (pyStrip line) '\t' = [dt, id, la, lo, ra])
    (hstr : pyStrip line = line)
    (hdt : ¬ dt = "") (hid : ¬ id = "")
    (happs : (parseApps? ra).isSome = true)
    (hgeo : pyFloat? la = none ∨ pyFloat? lo = none) :
    parse_appsinstalled line = (.ok none, [.logInvalidGeo line]) ∧
    processLine o s line =
      .ok { s with errors := s.errors + 1, events := s.events ++ [.logInvalidGeo line] } := by
  have hline : ¬ line = "" := by
    intro h0
    subst h0
    have hlen := congrArg List.length hsplit
    rw [show (pySplit (pyStrip "") '\t').length = 1 from rfl] at hlen
    simp at hlen
  have hparse : parse_appsinstalled line = (.ok none, [.logInvalidGeo line]) := by
    simp only [parse_appsinstalled, hsplit]
    rw [if_neg (not_or.mpr ⟨hdt, hid⟩)]
    obtain ⟨apps, happ⟩ := Option.isSome_iff_exists.mp happs
    rw [happ]
    rcases hgeo with hg | hg
    · rw [hg]
    · cases hla : pyFloat? la with
      | none => rfl
      | some v => rw [hg]
  refine ⟨hparse, ?_⟩
  rw [processLine, hstr, if_neg hline, hparse]

/-- C7 witness: a well-formed line whose `lat` field is the non-numeric
string `abc`, fed to the line loop in a fresh state. -/
theorem claim_C7_invalid_geo_witness :
    parse_appsinstalled "idfa\t1\tabc\t42.42\t1,2" =
      (.ok none, [.logInvalidGeo "idfa\t1\tabc\t42.42\t1,2"]) ∧
    processLine optsWet ⟨0, 0, [], []⟩ "idfa\t1\tabc\t42.42\t1,2" =
      .ok { processed := 0, errors := 0 + 1, buffers := ([] : List (String × Buffer)), events := ([] : List Event) ++ [.logInvalidGeo "idfa\t1\tabc\t42.42\t1,2"] } :=
  claim_C7_invalid_geo optsWet ⟨0, 0, [], []⟩ "idfa\t1\tabc\t42.42\t1,2" "idfa" "1" "abc"
    "42.42" "1,2" (by decide) (by decide) (by decide) (by decide) (by decide)
    (Or.inl (by decide))

/-! ## Claim C9 -/

/-- C9: after a file's lines are exhausted and the final flushes are done,
the file is renamed to `.name.ext` in the same directory, and the rename
precedes (and happens regardless of) the error-rate decision.  The first
conjunct computes the rename target for a file `name` inside a directory
`d`; the second for a bare file name; the third shows that the trace of
`finishFile` always ends with the `rename` event immediately followed by
the error-rate log event, for every state — in particular for any counter
values whatsoever. -/
theorem claim_C9_dot_rename :
    (∀ d name : String, ¬ d = "" → d.data.getLast? ≠ some '/' →
      ¬ name = "" → '/' ∉ name.data →
      dot_rename (d ++ "/" ++ name) = d ++ "/" ++ ("." ++ name)) ∧
    (∀ name : String, ¬ name = "" → '/' ∉ name.data →
      dot_rename name = "." ++ name) ∧
    (∀ (o : Options) (fn : String) (s : FileState), (finishFile o fn s).events =
      (flushRemaining o s).events ++ [.rename fn (dot_rename fn),
        rateEvent (flushRemaining o s).processed (flushRemaining o s).errors]) := by
  refine ⟨?_, ?_, ?_⟩
  · intro d name hd0 hdlast hn0 hns
    have hdata : (d ++ "/" ++ name).data = d.data ++ '/' :: name.data := by
      rw [String.data_append, String.data_append, List.append_assoc]
      rfl
    have hrev : (d ++ "/" ++ name).data.reverse = name.data.reverse ++ '/' :: d.data.reverse := by
      rw [hdata, List.reverse_append, List.reverse_cons, List.append_assoc]
      rfl
    have hne : ∀ a ∈ name.data.reverse, (fun c => decide (c ≠ '/')) a = true := by
      intro a ha
      simp only [decide_eq_true_eq]
      intro hEq
      exact hns (hEq ▸ List.mem_reverse.mp ha)
    have hslash : (fun c => decide (c ≠ '/')) '/' = false := by decide
    have htail : splitTail (d ++ "/" ++ name) = name.data := by
      rw [splitTail, hrev, takeWhile_append_mid _ _ _ _ hne hslash, List.reverse_reverse]
    have hheadraw : splitHeadRaw (d ++ "/" ++ name) = d.data ++ ['/'] := by
      rw [splitHeadRaw, hrev, dropWhile_append_mid _ _ _ _ hne hslash, List.reverse_cons,
        List.reverse_reverse]
    obtain ⟨c, rest, hrev2⟩ : ∃ c rest, d.data.reverse = c :: rest := by
      cases hr : d.data.reverse with
      | nil =>
        exact absurd (str_data_inj (by rw [← List.reverse_reverse d.data, hr]; rfl)) hd0
      | cons c rest => exact ⟨c, rest, rfl⟩
    have hclast : d.data.getLast? = some c := by
      rw [← List.head?_reverse, hrev2]
      rfl
    have hcne : ¬ c = '/' := fun hEq => hdlast (by rw [hclast, hEq])
    have hhead : splitHead (d ++ "/" ++ name) = d.data := by
      rw [splitHead, hheadraw]
      rw [if_neg ?hall]
      case hall =>
        intro hall
        have := List.all_eq_true.mp hall c (by
          exact List.mem_append_left _ (List.mem_reverse.mp (hrev2 ▸ List.mem_cons_self c rest)))
        exact hcne (by simpa using this)
      rw [List.reverse_append]
      rw [show (['/'] : List Char).reverse ++ d.data.reverse = '/' :: d.data.reverse from rfl]
      rw [List.dropWhile_cons, if_pos (by decide), hrev2, List.dropWhile_cons,
        if_neg (by simpa using hcne), ← hrev2, List.reverse_reverse]
    rw [dot_rename, os_path_split]
    rw [show (String.mk (splitHead (d ++ "/" ++ name)), String.mk (splitTail (d ++ "/" ++ name))).1
        = String.mk (splitHead (d ++ "/" ++ name)) from rfl]
    rw [show (String.mk (splitHead (d ++ "/" ++ name)), String.mk (splitTail (d ++ "/" ++ name))).2
        = String.mk (splitTail (d ++ "/" ++ name)) from rfl]
    rw [htail, hhead, str_mk_data, str_mk_data]
    rw [os_path_join]
    rw [if_neg (by rw [dot_prefix_head]; decide)]
    rw [if_neg (not_or.mpr ⟨hd0, fun hEq => hdlast (by rw [hEq])⟩)]
  · intro name hn0 hns
    have hne : ∀ a ∈ name.data.reverse, (fun c => decide (c ≠ '/')) a = true := by
      intro a ha
      simp only [decide_eq_true_eq]
      intro hEq
      exact hns (hEq ▸ List.mem_reverse.mp ha)
    have htail : splitTail name = name.data := by
      rw [splitTail, takeWhile_all _ _ hne, List.reverse_reverse]
    have hheadraw : splitHeadRaw name = [] := by
      rw [splitHeadRaw, dropWhile_all _ _ hne]
      rfl
    have hhead : splitHead name = [] := by
      rw [splitHead, hheadraw]
      rfl
    rw [dot_rename, os_path_split]
    rw [show (String.mk (splitHead name), String.mk (splitTail name)).1
        = String.mk (splitHead name) from rfl]
    rw [show (String.mk (splitHead name), String.mk (splitTail name)).2
        = String.mk (splitTail name) from rfl]
    rw [htail, hhead, str_mk_data]
    rw [os_path_join]
    rw [if_neg (by rw [dot_prefix_head]; decide)]
    rw [if_pos (Or.inl rfl)]
    exact str_nil_append ("." ++ name)
  · intro o fn s
    rfl

/-- C9 witness: the spec's `data.tsv` example, inside a directory and bare. -/
theorem claim_C9_dot_rename_witness :
    dot_rename ("dir" ++ "/" ++ "data.tsv") = "dir" ++ "/" ++ ("." ++ "data.tsv") ∧
    dot_rename "data.tsv" = "." ++ "data.tsv" :=
  ⟨claim_C9_dot_rename.1 "dir" "data.tsv" (by decide) (by decide) (by decide) (by decide),
    claim_C9_dot_rename.2.1 "data.tsv" (by decide) (by decide)⟩

/-! ## Claim C10 -/

theorem fabric_redis_not_memcache (addr : String) (c : Client)
    (h : StorageFabric.get_client "redis" addr = .ok c) :
    ∀ s, c ≠ .memcacheClient s := by
  intro s hEq
  subst hEq
  rw [StorageFabric.get_client, if_neg (by decide), if_pos rfl] at h
  cases hd : (pySplit addr ':').drop 1 with
  | nil => rw [hd] at h; exact absurd h (by simp)
  | cons p ps =>
    rw [hd] at h
    dsimp only at h
    cases hi : pyInt? p with
    | none => rw [hi] at h; exact absurd h (by simp)
    | some v =>
      rw [hi] at h
      exact absurd h (by simp)

/-- C10: on a cache miss, `StorageManager.get_client(addr)` constructs
exactly one client, hard-wired to the resilient redis kind with socket
timeout 3 and exponential-backoff retry with at most 3 attempts, and stores
it in the process-wide cache; a cache hit constructs nothing and returns
the cached client unchanged; after any successful call, every subsequent
call with the same address returns that same client without constructing
another; and the simple memcache kind is never constructed through this
path (a cache that contains no memcache client never acquires one). -/
theorem claim_C10_client_cache (addr : String) (cache : ClientCache) :
    (∀ c, alistGet cache addr = some c →
      StorageManager.get_client cache addr = .ok (c, cache, 0)) ∧
    (∀ portStr rest port, alistGet cache addr = none →
      (pySplit addr ':').drop 1 = portStr :: rest → pyInt? portStr = some port →
      StorageManager.get_client cache addr =
        .ok (.redisClient ((pySplit addr ':').headD "") port 3 .exponential 3
            [.busyLoadingError, .connectionError, .timeoutError] true,
          alistSet cache addr (.redisClient ((pySplit addr ':').headD "") port 3 .exponential 3
            [.busyLoadingError, .connectionError, .timeoutError] true), 1)) ∧
    (∀ c cache' n, StorageManager.get_client cache addr = .ok (c, cache', n) →
      StorageManager.get_client cache' addr = .ok (c, cache', 0)) ∧
    (∀ c cache' n, StorageManager.get_client cache addr = .ok (c, cache', n) →
      (∀ a k, alistGet cache a ≠ some (.memcacheClient k)) →
      ∀ a k, alistGet cache' a ≠ some (.memcacheClient k)) := by
  refine ⟨?_, ?_, ?_, ?_⟩
  · intro c hc
    rw [StorageManager.get_client, hc]
  · intro portStr rest port hmiss hd hint
    rw [StorageManager.get_client, hmiss]
    dsimp only
    rw [StorageFabric.get_client, if_neg (by decide), if_pos rfl, hd]
    dsimp only
    rw [hint]
  · intro c cache' n h
    rw [StorageManager.get_client] at h
    cases hc : alistGet cache addr with
    | some c0 =>
      rw [hc] at h
      injection h with h
      obtain ⟨rfl, rfl, rfl⟩ : c0 = c ∧ cache = cache' ∧ 0 = n := by
        refine ⟨congrArg Prod.fst h, ?_, ?_⟩
        · exact congrArg (fun x => x.2.1) h
        · exact congrArg (fun x => x.2.2) h
      rw [StorageManager.get_client, hc]
    | none =>
      rw [hc] at h
      cases hf : StorageFabric.get_client "redis" addr with
      | error e => rw [hf] at h; exact absurd h (by simp)
      | ok c1 =>
        rw [hf] at h
        injection h with h
        obtain ⟨rfl, rfl⟩ : c1 = c ∧ alistSet cache addr c1 = cache' := by
          refine ⟨congrArg Prod.fst h, ?_⟩
          · exact congrArg (fun x => x.2.1) h
        rw [StorageManager.get_client, alistGet_set_self]
  · intro c cache' n h hclean a k
    rw [StorageManager.get_client] at h
    cases hc : alistGet cache addr with
    | some c0 =>
      rw [hc] at h
      injection h with h
      obtain rfl : cache = cache' := congrArg (fun x => x.2.1) h
      exact hclean a k
    | none =>
      rw [hc] at h
      cases hf : StorageFabric.get_client "redis" addr with
      | error e => rw [hf] at h; exact absurd h (by simp)
      | ok c1 =>
        rw [hf] at h
        injection h with h
        obtain rfl : alistSet cache addr c1 = cache' := congrArg (fun x => x.2.1) h
        intro hbad
        by_cases hak : addr = a
        · rw [alistGet_set, if_pos hak] at hbad
          injection hbad with hbad
          exact fabric_redis_not_memcache addr c1 hf k hbad
        · rw [alistGet_set, if_neg hak] at hbad
          exact hclean a k hbad

/-! ## Claim C5: batch fill and flush lemmas -/

theorem routeAddr_idfa (o : Options) (ho : ¬ o.idfa = "") :
    routeAddr o "idfa" = some o.idfa := by
  rw [routeAddr, device_storage, if_pos rfl]
  dsimp only
  rw [if_neg ho]

theorem prep_mkRec (s : String) : prepare_data (mkRec s) = ("idfa:" ++ s, ua0) := rfl

theorem bufOf_succ (key : Nat → String) (n : Nat) :
    bufOf key (n + 1) = bufOf key n ++ [("idfa:" ++ key n, ua0)] := by
  rw [bufOf, bufOf, List.range_succ, List.map_append]
  rfl

theorem bufOf_length (key : Nat → String) (n : Nat) : (bufOf key n).length = n := by
  rw [bufOf, List.length_map, List.length_range]

theorem recsFor_succ (key : Nat → String) (n : Nat) :
    recsFor key (n + 1) = recsFor key n ++ [mkRec (key n)] := by
  rw [recsFor, recsFor, List.range_succ, List.map_append]
  rfl

theorem bufOf_get_fresh (key : Nat → String) (hinj : Function.Injective key) (n m : Nat)
    (hm : n ≤ m) : alistGet (bufOf key n) ("idfa:" ++ key m) = none := by
  apply alistGet_eq_none
  intro p hp
  rw [bufOf] at hp
  obtain ⟨i, hi, rfl⟩ := List.mem_map.mp hp
  intro hEq
  have hkey : key i = key m := str_append_left_cancel hEq
  have him : i = m := hinj hkey
  have hin : i < n := List.mem_range.mp hi
  omega

theorem initBuffers_eq (o : Options) :
    initBuffers o =
      alistSet (alistSet (alistSet (alistSet [] o.idfa ([] : Buffer)) o.gaid []) o.adid [])
        o.dvid [] := rfl

theorem initBuffers_get_idfa (o : Options) :
    alistGet (initBuffers o) o.idfa = some ([] : Buffer) := by
  rw [initBuffers_eq, alistGet_set, alistGet_set, alistGet_set, alistGet_set_self]
  split_ifs <;> rfl

theorem alistSet_values_nil (l : List (String × Buffer)) (k : String)
    (h : ∀ p ∈ l, p.2 = ([] : Buffer)) :
    ∀ p ∈ alistSet l k ([] : Buffer), p.2 = ([] : Buffer) := by
  intro p hp
  rcases mem_alistSet l k [] p hp with h2 | h2
  · rw [h2]
  · exact h p h2

theorem initBuffers_values_nil (o : Options) : ∀ p ∈ initBuffers o, p.2 = ([] : Buffer) := by
  rw [initBuffers_eq]
  exact alistSet_values_nil _ o.dvid (alistSet_values_nil _ o.adid (alistSet_values_nil _ o.gaid
    (alistSet_values_nil _ o.idfa (fun p hp => absurd hp (List.not_mem_nil p)))))

theorem insertCallsOf_append (a b : List Event) :
    insertCallsOf (a ++ b) = insertCallsOf a ++ insertCallsOf b := by
  rw [insertCallsOf, insertCallsOf, insertCallsOf, List.filterMap_append]

theorem insertCallsOf_tailevents (fn d : String) (p e : Nat) :
    insertCallsOf [Event.rename fn d, rateEvent p e] = [] := by
  rw [rateEvent]
  split <;> rfl

theorem flushBatch_fails (o : Options) (s : FileState) (addr : String) (buf : Buffer) :
    flushBatch o s addr buf =
      { s with errors := s.errors + buf.length, buffers := alistSet s.buffers addr [], events := s.events ++ (insert_appsinstalled addr buf o.dry).events } := by
  cases hd : o.dry
  · rw [flushBatch, hd, insert_nondry_eq]
  · rw [flushBatch, hd, insert_dry_eq]

theorem insertRecord_no_flush (o : Options) (s : FileState) (addr k : String) (v : UserApps)
    (B : Buffer) (hget : alistGet s.buffers addr = some B) (hfresh : alistGet B k = none)
    (hlen : B.length + 1 < BATCH_SIZE) :
    insertRecord o s addr (k, v) = { s with buffers := alistSet s.buffers addr (B ++ [(k, v)]) } := by
  rw [insertRecord, hget]
  dsimp only
  rw [Option.getD_some, alistSet_fresh _ _ _ hfresh]
  rw [if_neg (by simp only [List.length_append, List.length_singleton]; omega)]

theorem insertRecord_flush (o : Options) (s : FileState) (addr k : String) (v : UserApps)
    (B : Buffer) (hget : alistGet s.buffers addr = some B) (hfresh : alistGet B k = none)
    (hlen : B.length + 1 = BATCH_SIZE) :
    insertRecord o s addr (k, v) = flushBatch o s addr (B ++ [(k, v)]) := by
  rw [insertRecord, hget]
  dsimp only
  rw [Option.getD_some, alistSet_fresh _ _ _ hfresh]
  rw [if_pos (by simp only [List.length_append, List.length_singleton]; omega)]

theorem c5_fill (o : Options) (fn : String) (key : Nat → String)
    (hinj : Function.Injective key) (ho : ¬ o.idfa = "") :
    ∀ c, c < BATCH_SIZE →
      (recsFor key c).foldl (handleRecord o) (initState o fn) = midState o fn key c := by
  intro c
  induction c with
  | zero =>
    intro _
    rw [show recsFor key 0 = [] from rfl, List.foldl_nil, midState,
      show bufOf key 0 = ([] : Buffer) from rfl,
      alistSet_of_get_eq _ _ _ (initBuffers_get_idfa o)]
    rfl
  | succ c ih =>
    intro hc
    have hc' : c < BATCH_SIZE := Nat.lt_of_succ_lt hc
    rw [recsFor_succ, List.foldl_append, ih hc', List.foldl_cons, List.foldl_nil]
    have hget : alistGet (midState o fn key c).buffers o.idfa = some (bufOf key c) := by
      rw [show (midState o fn key c).buffers
          = alistSet (initBuffers o) o.idfa (bufOf key c) from rfl, alistGet_set_self]
    rw [handleRecord, show (mkRec (key c)).dev_type = "idfa" from rfl, routeAddr_idfa o ho]
    dsimp only
    rw [prep_mkRec]
    rw [insertRecord_no_flush o (midState o fn key c) o.idfa ("idfa:" ++ key c) ua0
      (bufOf key c) hget (bufOf_get_fresh key hinj c c (Nat.le_refl c))
      (by rw [bufOf_length]; omega)]
    rw [← bufOf_succ]
    rw [show (midState o fn key c).buffers
        = alistSet (initBuffers o) o.idfa (bufOf key c) from rfl, alistSet_set]
    rfl

theorem c5_boundary (o : Options) (fn : String) (key : Nat → String)
    (hinj : Function.Injective key) (ho : ¬ o.idfa = "") :
    (recsFor key BATCH_SIZE).foldl (handleRecord o) (initState o fn) =
      boundaryState o fn key := by
  rw [show BATCH_SIZE = (BATCH_SIZE - 1) + 1 from by decide]
  rw [recsFor_succ, List.foldl_append, c5_fill o fn key hinj ho (BATCH_SIZE - 1) (by decide),
    List.foldl_cons, List.foldl_nil]
  have hget : alistGet (midState o fn key (BATCH_SIZE - 1)).buffers o.idfa
      = some (bufOf key (BATCH_SIZE - 1)) := by
    rw [show (midState o fn key (BATCH_SIZE - 1)).buffers
        = alistSet (initBuffers o) o.idfa (bufOf key (BATCH_SIZE - 1)) from rfl,
      alistGet_set_self]
  rw [handleRecord, show (mkRec (key (BATCH_SIZE - 1))).dev_type = "idfa" from rfl,
    routeAddr_idfa o ho]
  dsimp only
  rw [prep_mkRec]
  rw [insertRecord_flush o (midState o fn key (BATCH_SIZE - 1)) o.idfa
    ("idfa:" ++ key (BATCH_SIZE - 1)) ua0 (bufOf key (BATCH_SIZE - 1)) hget
    (bufOf_get_fresh key hinj (BATCH_SIZE - 1) (BATCH_SIZE - 1) (Nat.le_refl _))
    (by rw [bufOf_length]; decide)]
  rw [← bufOf_succ, show (BATCH_SIZE - 1) + 1 = BATCH_SIZE from by decide]
  rw [flushBatch_fails]
  rw [show (midState o fn key (BATCH_SIZE - 1)).buffers
      = alistSet (initBuffers o) o.idfa (bufOf key (BATCH_SIZE - 1)) from rfl, alistSet_set]
  rfl

theorem flushStep_calls (o : Options) (st : FileState) (p : String × Buffer) :
    insertCallsOf (flushStep o st p).events =
      insertCallsOf st.events ++ (if p.2 = [] then [] else [(p.1, p.2.length)]) := by
  rw [flushStep]
  by_cases hp : p.2 = []
  · rw [if_pos hp, if_pos hp, List.append_nil]
  · rw [if_neg hp, if_neg hp]
    have hkey : ∀ st2 : FileState,
        st2.events = st.events ++ (insert_appsinstalled p.1 p.2 o.dry).events →
        insertCallsOf st2.events = insertCallsOf st.events ++ [(p.1, p.2.length)] := by
      intro st2 h2
      rw [h2, insertCallsOf_append, insertCallsOf_insert]
    cases hr : (insert_appsinstalled p.1 p.2 o.dry).result with
    | none => exact hkey _ rfl
    | some b =>
      cases b with
      | false => exact hkey _ rfl
      | true => exact hkey _ rfl

theorem flushFold_calls (o : Options) :
    ∀ (l : List (String × Buffer)) (st : FileState),
      insertCallsOf (flushFold o l st).events =
        insertCallsOf st.events ++
          (l.filter (fun p => !decide (p.2 = []))).map (fun p => (p.1, p.2.length)) := by
  intro l
  induction l with
  | nil =>
    intro st
    rw [flushFold, List.foldl_nil, List.filter_nil, List.map_nil, List.append_nil]
  | cons p t ih =>
    intro st
    rw [flushFold, List.foldl_cons,
      show List.foldl (flushStep o) (flushStep o st p) t = flushFold o t (flushStep o st p)
        from rfl,
      ih, flushStep_calls, List.filter_cons]
    by_cases hp : p.2 = []
    · rw [if_pos hp, if_neg (by simp [hp]), List.append_nil]
    · rw [if_neg hp, if_pos (by simp [hp]), List.map_cons, List.append_assoc]
      rfl

theorem filter_nonempty_of_all_nil (l : List (String × Buffer))
    (h : ∀ p ∈ l, p.2 = ([] : Buffer)) :
    l.filter (fun p => !decide (p.2 = [])) = [] := by
  induction l with
  | nil => rfl
  | cons p t ih =>
    rw [List.filter_cons, if_neg (by simp [h p (List.mem_cons_self p t)])]
    exact ih (fun q hq => h q (List.mem_cons_of_mem _ hq))

theorem filter_set_single (l : List (String × Buffer)) (k : String) (B : Buffer)
    (h : ∀ p ∈ l, p.2 = ([] : Buffer)) (hB : ¬ B = []) :
    (alistSet l k B).filter (fun p => !decide (p.2 = [])) = [(k, B)] := by
  induction l with
  | nil =>
    rw [alistSet, List.filter_cons, if_pos (by simp [hB]), List.filter_nil]
  | cons q t ih =>
    obtain ⟨k', v'⟩ := q
    have hv : v' = [] := h (k', v') (List.mem_cons_self _ t)
    subst hv
    by_cases hk : k' = k
    · subst hk
      rw [alistSet, if_pos rfl, List.filter_cons, if_pos (by simp [hB]),
        filter_nonempty_of_all_nil t (fun q hq => h q (List.mem_cons_of_mem _ hq))]
    · rw [alistSet, if_neg hk, List.filter_cons, if_neg (by simp)]
      exact ih (fun q hq => h q (List.mem_cons_of_mem _ hq))

theorem finishFile_calls (o : Options) (fn : String) (s : FileState) :
    insertCallsOf (finishFile o fn s).events =
      insertCallsOf s.events ++
        (s.buffers.filter (fun p => !decide (p.2 = []))).map (fun p => (p.1, p.2.length)) := by
  rw [show (finishFile o fn s).events = (flushRemaining o s).events
      ++ [.rename fn (dot_rename fn),
        rateEvent (flushRemaining o s).processed (flushRemaining o s).errors] from rfl]
  rw [insertCallsOf_append, insertCallsOf_tailevents, List.append_nil, flushRemaining,
    flushFold_calls]

theorem boundaryState_calls (o : Options) (fn : String) (key : Nat → String) :
    insertCallsOf (boundaryState o fn key).events = [(o.idfa, BATCH_SIZE)] := by
  rw [show (boundaryState o fn key).events = ([.logProcessing fn] : List Event)
      ++ (insert_appsinstalled o.idfa (bufOf key BATCH_SIZE) o.dry).events from rfl]
  rw [insertCallsOf_append, insertCallsOf_insert, bufOf_length]
  rfl

theorem c5_step_after (o : Options) (fn : String) (key : Nat → String)
    (ho : ¬ o.idfa = "") :
    handleRecord o (boundaryState o fn key) (mkRec (key BATCH_SIZE)) =
      { boundaryState o fn key with buffers := alistSet (initBuffers o) o.idfa [("idfa:" ++ key BATCH_SIZE, ua0)] } := by
  have hget : alistGet (boundaryState o fn key).buffers o.idfa = some ([] : Buffer) := by
    rw [show (boundaryState o fn key).buffers = alistSet (initBuffers o) o.idfa [] from rfl,
      alistGet_set_self]
  rw [handleRecord, show (mkRec (key BATCH_SIZE)).dev_type = "idfa" from rfl,
    routeAddr_idfa o ho]
  dsimp only
  rw [prep_mkRec]
  rw [insertRecord_no_flush o (boundaryState o fn key) o.idfa ("idfa:" ++ key BATCH_SIZE) ua0
    [] hget rfl (by decide)]
  rw [show (boundaryState o fn key).buffers = alistSet (initBuffers o) o.idfa [] from rfl,
    alistSet_set]
  rfl

theorem keyRep_injective : Function.Injective keyRep := by
  intro a b h
  have h2 := congrArg (fun s : String => s.data.length) h
  simpa [keyRep] using h2

/-- C5: for a file producing valid distinct-key `idfa` records, the batch
buffer is flushed as one `insert_appsinstalled` call the moment it reaches
`BATCH_SIZE = 100000` entries and is then cleared, and a non-empty
remainder is flushed once at end of file: exactly `BATCH_SIZE` records
produce exactly one flush call of size `BATCH_SIZE` (for the record's
address) with the buffer empty at end of lines — the end-of-file loop adds
nothing — while `BATCH_SIZE + 1` records produce that flush followed by a
final flush of size 1.  `key` enumerates the pairwise-distinct device ids;
the conclusion holds for any options (dry or not) whose `idfa` address is
truthy. -/
theorem claim_C5_batch_boundary (o : Options) (fn : String) (key : Nat → String)
    (hinj : Function.Injective key) (ho : ¬ o.idfa = "") :
    (insertCallsOf (runRecords o fn (recsFor key BATCH_SIZE)).events = [(o.idfa, BATCH_SIZE)] ∧
      alistGet ((recsFor key BATCH_SIZE).foldl (handleRecord o) (initState o fn)).buffers o.idfa
        = some ([] : Buffer)) ∧
    insertCallsOf (runRecords o fn (recsFor key (BATCH_SIZE + 1))).events =
      [(o.idfa, BATCH_SIZE), (o.idfa, 1)] := by
  refine ⟨⟨?_, ?_⟩, ?_⟩
  · rw [runRecords, c5_boundary o fn key hinj ho, finishFile_calls, boundaryState_calls]
    rw [show (boundaryState o fn key).buffers = alistSet (initBuffers o) o.idfa [] from rfl]
    rw [filter_nonempty_of_all_nil _ (alistSet_values_nil _ _ (initBuffers_values_nil o))]
    rw [List.map_nil, List.append_nil]
  · rw [c5_boundary o fn key hinj ho]
    rw [show (boundaryState o fn key).buffers = alistSet (initBuffers o) o.idfa [] from rfl,
      alistGet_set_self]
  · rw [runRecords, recsFor_succ, List.foldl_append, c5_boundary o fn key hinj ho,
      List.foldl_cons, List.foldl_nil, c5_step_after o fn key ho, finishFile_calls]
    rw [show ({ boundaryState o fn key with buffers := alistSet (initBuffers o) o.idfa [("idfa:" ++ key BATCH_SIZE, ua0)] } : FileState).events = (boundaryState o fn key).events from rfl]
    rw [show ({ boundaryState o fn key with buffers := alistSet (initBuffers o) o.idfa [("idfa:" ++ key BATCH_SIZE, ua0)] } : FileState).buffers = alistSet (initBuffers o) o.idfa [("idfa:" ++ key BATCH_SIZE, ua0)] from rfl]
    rw [boundaryState_calls]
    rw [filter_set_single _ _ _ (initBuffers_values_nil o) (by simp)]
    rfl

/-- C5 witness: the default configuration, records keyed by
pairwise-distinct device ids `keyRep i` (the string of `i` letters `a`). -/
theorem claim_C5_batch_boundary_witness :
    (insertCallsOf (runRecords optsWet "sample.tsv" (recsFor keyRep BATCH_SIZE)).events =
        [("127.0.0.1:6380", BATCH_SIZE)] ∧
      alistGet ((recsFor keyRep BATCH_SIZE).foldl (handleRecord optsWet)
        (initState optsWet "sample.tsv")).buffers "127.0.0.1:6380" = some ([] : Buffer)) ∧
    insertCallsOf (runRecords optsWet "sample.tsv" (recsFor keyRep (BATCH_SIZE + 1))).events =
      [("127.0.0.1:6380", BATCH_SIZE), ("127.0.0.1:6380", 1)] :=
  claim_C5_batch_boundary optsWet "sample.tsv" keyRep keyRep_injective (by decide)

/-- C10 witness: the default `idfa` address on an empty cache — one
resilient client is constructed and cached. -/
theorem claim_C10_client_cache_witness :
    StorageManager.get_client [] "127.0.0.1:6380" =
      .ok (.redisClient "127.0.0.1" 6380 3 .exponential 3
          [.busyLoadingError, .connectionError, .timeoutError] true,
        alistSet [] "127.0.0.1:6380" (.redisClient "127.0.0.1" 6380 3 .exponential 3
          [.busyLoadingError, .connectionError, .timeoutError] true), 1) :=
  (claim_C10_client_cache "127.0.0.1:6380" []).2.1 "6380" [] 6380 (by decide) (by decide)
    (by decide)

end MemLoad
